import Mathlib

/-!
Shallow embedding of the health-care backend's scheduling and
doctor-specialty subsystems, translated from the repository sources:

* schedule service (insertIntoDb): slot generation loop and the
  find-then-create slot registry step;
* doctorSchedule service: insertIntoDB (assign), getMySchedule (listing),
  deleteFromDB (unassign with booked-slot guard);
* doctor service updateIntoDB and user service createDoctor, as given by
  the repository's refactoring guide code blocks (remove pass, add pass,
  transactional doctor creation with initial specialties).

Identifiers are Nat; date-times are minutes since an epoch; database
tables are lists of rows; thrown errors are Except values; a Prisma
transaction that throws is modelled by a run wrapper that returns the
original state on error.
-/

namespace HealthCare

/-! ### Slot generation (schedule service, insertIntoDb) -/

/-- The fixed slot granularity from the schedule service (intervalTime = 30). -/
def intervalTime : Nat := 30

/-- State of the inner slot-emission loop of insertIntoDb: the cursor
variable startDateTime, the schedule table rows (start, end), and the
accumulated pushed results. -/
structure GenState where
  startDateTime : Nat
  schedules : List (Nat × Nat)
  pushed : List (Nat × Nat)
  deriving Repr, DecidableEq

/-- One iteration of the inner while loop of insertIntoDb: it computes
slotStartDateTime = startDateTime and slotEndDateTime = startDateTime + 30,
looks up an existing schedule row with those exact bounds, and inserts the
row when absent.  The loop body never assigns to startDateTime, so the
cursor component is returned unchanged, exactly as in the source. -/
def slotLoopStep (s : GenState) : GenState :=
  let slotStartDateTime := s.startDateTime
  let slotEndDateTime := s.startDateTime + intervalTime
  let scheduleData := (slotStartDateTime, slotEndDateTime)
  if (s.schedules.find? (fun r => r == scheduleData)).isSome then s
  else { s with
    schedules := s.schedules ++ [scheduleData],
    pushed := s.pushed ++ [scheduleData] }

/-- Guard of the inner while loop: startDateTime < endDateTime. -/
def slotLoopGuard (endDateTime : Nat) (s : GenState) : Prop :=
  s.startDateTime < endDateTime

instance (endDateTime : Nat) (s : GenState) : Decidable (slotLoopGuard endDateTime s) := by
  unfold slotLoopGuard; infer_instance

/-- Initial inner-loop state for the spec's own example input
(startDate = endDate = 2024-01-01, dailyStartTime 09:00, dailyEndTime 10:00):
cursor at 540 minutes, empty schedule table. -/
def genExample : GenState :=
  { startDateTime := 540, schedules := [], pushed := [] }

theorem slotLoopStep_startDateTime (s : GenState) :
    (slotLoopStep s).startDateTime = s.startDateTime := by
  unfold slotLoopStep
  dsimp only
  split <;> rfl

theorem slotLoopStep_iterate_startDateTime (s : GenState) (n : Nat) :
    (slotLoopStep^[n] s).startDateTime = s.startDateTime := by
  induction n with
  | zero => rfl
  | succ n ih =>
    rw [Function.iterate_succ_apply', slotLoopStep_startDateTime, ih]

/-! ### Slot registry (find existing schedule by exact bounds, create if absent) -/

/-- The registry step of insertIntoDb (findFirst by exact bounds, create
when no row exists), as a function on the schedule table. -/
def registerSlot (schedules : List (Nat × Nat)) (scheduleData : Nat × Nat) :
    List (Nat × Nat) :=
  if (schedules.find? (fun r => r == scheduleData)).isSome then schedules
  else schedules ++ [scheduleData]

/-- Registering a list of candidate slots one after the other. -/
def registerSlots (schedules : List (Nat × Nat)) (candidates : List (Nat × Nat)) :
    List (Nat × Nat) :=
  candidates.foldl registerSlot schedules

theorem find?_beq_isSome (l : List (Nat × Nat)) (c : Nat × Nat) :
    (l.find? (fun r => r == c)).isSome = true ↔ c ∈ l := by
  rw [List.find?_isSome]
  constructor
  · rintro ⟨x, hx, hbeq⟩
    rcases beq_iff_eq.mp hbeq with rfl
    exact hx
  · intro hc
    exact ⟨c, hc, beq_iff_eq.mpr rfl⟩

theorem count_registerSlot (schedules : List (Nat × Nat)) (c : Nat × Nat) :
    (registerSlot schedules c).count c =
      if c ∈ schedules then schedules.count c else schedules.count c + 1 := by
  unfold registerSlot
  by_cases hc : c ∈ schedules
  · rw [if_pos ((find?_beq_isSome schedules c).mpr hc), if_pos hc]
  · rw [if_neg (fun h => hc ((find?_beq_isSome schedules c).mp h)), if_neg hc]
    simp [List.count_append]

theorem mem_registerSlot (schedules : List (Nat × Nat)) (c : Nat × Nat) :
    c ∈ registerSlot schedules c := by
  unfold registerSlot
  split
  · next h => exact (find?_beq_isSome schedules c).mp h
  · simp

/-- Claim C1: the claim states that the slot-generation loop terminates for
every input, advancing its cursor by intervalMinutes every iteration.  The
code violates this: the inner while loop of insertIntoDb never assigns to
startDateTime, so at the spec's own example input (2024-01-01, 09:00 to
10:00) the cursor stays at 540 after any number of iterations and the loop
guard startDateTime < 600 holds forever, i.e. the loop never terminates. -/
theorem slotLoop_cursor_never_advances :
    ∀ n : Nat, (slotLoopStep^[n] genExample).startDateTime = 540 ∧
      slotLoopGuard 600 (slotLoopStep^[n] genExample) := by
  intro n
  have h := slotLoopStep_iterate_startDateTime genExample n
  refine ⟨h, ?_⟩
  unfold slotLoopGuard
  rw [h]
  decide

/-- Claim C6: registering the same candidate pair twice, within one call or
across two sequential calls, leaves exactly one schedule row with those
bounds, provided the table held at most one such row to begin with. -/
theorem registerSlots_dedup (schedules : List (Nat × Nat)) (c : Nat × Nat)
    (h : schedules.count c ≤ 1) :
    (registerSlots schedules [c, c]).count c = 1 ∧
    (registerSlots (registerSlots schedules [c]) [c]).count c = 1 := by
  have hstep : (registerSlot (registerSlot schedules c) c).count c = 1 := by
    rw [count_registerSlot]
    rw [if_pos (mem_registerSlot schedules c)]
    rw [count_registerSlot]
    by_cases hc : c ∈ schedules
    · rw [if_pos hc]
      exact Nat.le_antisymm h (List.count_pos_iff.mpr hc)
    · rw [if_neg hc]
      have : schedules.count c = 0 := by
        exact List.count_eq_zero.mpr hc
      omega
  exact ⟨hstep, hstep⟩

/-- Witness for registerSlots_dedup at a concrete table and candidate. -/
theorem registerSlots_dedup_witness :
    ([] : List (Nat × Nat)).count (540, 570) ≤ 1 ∧
    (registerSlots [] [(540, 570), (540, 570)]).count (540, 570) = 1 ∧
    (registerSlots (registerSlots [] [(540, 570)]) [(540, 570)]).count (540, 570) = 1 := by
  refine ⟨by decide, ?_, ?_⟩
  · exact (registerSlots_dedup [] (540, 570) (by decide)).1
  · exact (registerSlots_dedup [] (540, 570) (by decide)).2

/-! ### Doctor availability (doctorSchedule service) -/

/-- A doctor row, keeping only the columns the doctorSchedule service
reads: the id and the email the caller is looked up by. -/
structure Doctor where
  id : Nat
  email : Nat
  deriving Repr, DecidableEq

/-- A schedule row: id and the slot bounds. -/
structure Schedule where
  id : Nat
  startDateTime : Nat
  endDateTime : Nat
  deriving Repr, DecidableEq

/-- A doctorSchedules row (doctorId, scheduleId, isBooked). -/
structure DoctorSchedule where
  doctorId : Nat
  scheduleId : Nat
  isBooked : Bool
  deriving Repr, DecidableEq

/-- The tables touched by the doctorSchedule service. -/
structure AvailState where
  doctors : List Doctor
  schedules : List Schedule
  doctorSchedules : List DoctorSchedule
  deriving Repr, DecidableEq

/-- insertIntoDB of the doctorSchedule service: look up the doctor by the
caller's email, fetch the schedule rows whose id is in scheduleIds, throw
the generic message when the fetched count differs from the request count,
otherwise createMany with skipDuplicates (each row is inserted unless a row
with the same (doctorId, scheduleId) is already present, duplicates inside
the batch included).  Returns the created-row count with the new state. -/
def insertIntoDB (userEmail : Nat) (scheduleIds : List Nat) (st : AvailState) :
    Except String (Nat × AvailState) :=
  match st.doctors.find? (fun d => d.email == userEmail) with
  | none => Except.error "Doctor not found for this email"
  | some doctorData =>
    let validSchedules := st.schedules.filter (fun s => scheduleIds.contains s.id)
    if validSchedules.length != scheduleIds.length then
      Except.error "One or more schedule IDs are invalid"
    else
      let newRows := scheduleIds.foldl
        (fun acc scheduleId =>
          if acc.any (fun l => l.doctorId == doctorData.id && l.scheduleId == scheduleId) then
            acc
          else
            acc ++ [{ doctorId := doctorData.id, scheduleId := scheduleId, isBooked := false }])
        st.doctorSchedules
      Except.ok (newRows.length - st.doctorSchedules.length,
        { st with doctorSchedules := newRows })

/-- Observable post-state of insertIntoDB: on a thrown error nothing was
written (the throw happens before createMany), so the state is unchanged. -/
def runInsertIntoDB (userEmail : Nat) (scheduleIds : List Nat) (st : AvailState) :
    AvailState :=
  match insertIntoDB userEmail scheduleIds st with
  | Except.ok r => r.2
  | Except.error _ => st

/-- The filter object of getMySchedule after the destructuring of startDate
and endDate; the residual filterData carries only isBooked, which arrives
as a query string. -/
structure MyScheduleFilters where
  startDate : Option Nat
  endDate : Option Nat
  isBooked : Option String
  deriving Repr, DecidableEq

/-- The equals-condition getMySchedule builds for the isBooked key: the
string true or false is coerced to a boolean before comparison; any other
string is compared against a boolean column and matches no row. -/
def isBookedEquals (v : String) (b : Bool) : Bool :=
  if v == "true" then b == true
  else if v == "false" then b == false
  else false

/-- The date-range condition of getMySchedule: the related schedule row
must satisfy startDateTime >= startDate and endDateTime <= endDate. -/
def scheduleDateCond (startDate endDate : Nat) (schedules : List Schedule)
    (l : DoctorSchedule) : Bool :=
  match schedules.find? (fun s => s.id == l.scheduleId) with
  | some s => decide (startDate ≤ s.startDateTime) && decide (s.endDateTime ≤ endDate)
  | none => false

/-- The where-conditions of getMySchedule: the date condition is pushed
only when both startDate and endDate are present, and the residual
filterData contributes an equals condition per remaining key.  No condition
mentions the caller. -/
def myScheduleWhere (filters : MyScheduleFilters) (schedules : List Schedule)
    (l : DoctorSchedule) : Bool :=
  (match filters.startDate, filters.endDate with
   | some sd, some ed => scheduleDateCond sd ed schedules l
   | _, _ => true) &&
  (match filters.isBooked with
   | some v => isBookedEquals v l.isBooked
   | none => true)

/-- The paged result shape returned by getMySchedule. -/
structure PagedResult where
  total : Nat
  page : Nat
  limit : Nat
  data : List DoctorSchedule
  deriving Repr, DecidableEq

/-- getMySchedule of the doctorSchedule service: builds the where
conditions from the filters, then findMany with skip and take and a count.
The user argument (the caller's identity) is received but never used, as
in the source. -/
def getMySchedule (filters : MyScheduleFilters) (page limit : Nat) (user : Nat)
    (st : AvailState) : PagedResult :=
  let skip := (page - 1) * limit
  let rows := st.doctorSchedules.filter (myScheduleWhere filters st.schedules)
  { total := rows.length, page := page, limit := limit,
    data := (rows.drop skip).take limit }

/-- Errors thrown by deleteFromDB: the findUniqueOrThrow doctor lookup, the
ApiError guarding a booked schedule (status 400 with the source's message),
and the delete of an absent row. -/
inductive DeleteError where
  | doctorNotFound
  | apiError (statusCode : Nat) (message : String)
  | scheduleNotFound
  deriving Repr, DecidableEq

/-- The message of the ApiError thrown for a booked schedule. -/
def bookedMessage : String :=
  "You can not delete the schedule because of the schedule is already booked!"

/-- deleteFromDB of the doctorSchedule service: look up the doctor by
email, findFirst a row with this doctorId, scheduleId and isBooked true and
throw the ApiError when one exists, otherwise delete the row with that
composite key. -/
def deleteFromDB (userEmail : Nat) (scheduleId : Nat) (st : AvailState) :
    Except DeleteError (DoctorSchedule × AvailState) :=
  match st.doctors.find? (fun d => d.email == userEmail) with
  | none => Except.error DeleteError.doctorNotFound
  | some doctorData =>
    match st.doctorSchedules.find?
        (fun s => s.doctorId == doctorData.id && s.scheduleId == scheduleId && s.isBooked) with
    | some _ => Except.error (DeleteError.apiError 400 bookedMessage)
    | none =>
      match st.doctorSchedules.find?
          (fun s => s.doctorId == doctorData.id && s.scheduleId == scheduleId) with
      | none => Except.error DeleteError.scheduleNotFound
      | some row =>
        let remaining := st.doctorSchedules.filter
          (fun s => !(s.doctorId == doctorData.id && s.scheduleId == scheduleId))
        Except.ok (row, { st with doctorSchedules := remaining })

/-- Observable post-state of deleteFromDB: a thrown error aborts before any
delete, leaving the state unchanged. -/
def runDeleteFromDB (userEmail scheduleId : Nat) (st : AvailState) : AvailState :=
  match deleteFromDB userEmail scheduleId st with
  | Except.ok r => r.2
  | Except.error _ => st

/-- Claim C2: when the caller's doctor holds a booked link for the given
schedule, deleteFromDB throws the booked-schedule ApiError, performs no
delete, and the link is still present afterwards. -/
theorem deleteFromDB_booked_conflict (userEmail scheduleId : Nat) (st : AvailState)
    (doctorData : Doctor) (link : DoctorSchedule)
    (hdoc : st.doctors.find? (fun d => d.email == userEmail) = some doctorData)
    (hmem : link ∈ st.doctorSchedules)
    (hdid : link.doctorId = doctorData.id)
    (hsid : link.scheduleId = scheduleId)
    (hbooked : link.isBooked = true) :
    deleteFromDB userEmail scheduleId st =
      Except.error (DeleteError.apiError 400 bookedMessage) ∧
    link ∈ (runDeleteFromDB userEmail scheduleId st).doctorSchedules := by
  have hfind : (st.doctorSchedules.find? (fun s =>
      s.doctorId == doctorData.id && s.scheduleId == scheduleId && s.isBooked)).isSome = true := by
    rw [List.find?_isSome]
    exact ⟨link, hmem, by simp [hdid, hsid, hbooked]⟩
  obtain ⟨x, hx⟩ := Option.isSome_iff_exists.mp hfind
  have herr : deleteFromDB userEmail scheduleId st =
      Except.error (DeleteError.apiError 400 bookedMessage) := by
    simp only [deleteFromDB, hdoc, hx]
  refine ⟨herr, ?_⟩
  unfold runDeleteFromDB
  rw [herr]
  exact hmem

/-- Witness for deleteFromDB_booked_conflict at a concrete state. -/
theorem deleteFromDB_booked_conflict_witness :
    deleteFromDB 5 1
        { doctors := [{ id := 7, email := 5 }],
          schedules := [{ id := 1, startDateTime := 540, endDateTime := 570 }],
          doctorSchedules := [{ doctorId := 7, scheduleId := 1, isBooked := true }] } =
      Except.error (DeleteError.apiError 400 bookedMessage) ∧
    ({ doctorId := 7, scheduleId := 1, isBooked := true } : DoctorSchedule) ∈
      (runDeleteFromDB 5 1
        { doctors := [{ id := 7, email := 5 }],
          schedules := [{ id := 1, startDateTime := 540, endDateTime := 570 }],
          doctorSchedules := [{ doctorId := 7, scheduleId := 1, isBooked := true }] }).doctorSchedules := by
  exact deleteFromDB_booked_conflict 5 1 _ { id := 7, email := 5 }
    { doctorId := 7, scheduleId := 1, isBooked := true }
    (by decide) (by decide) rfl rfl rfl

/-- A concrete state with two doctors in which doctor 42 owns the only
availability row; the caller of getMySchedule is doctor 7 (email 5). -/
def availExample : AvailState :=
  { doctors := [{ id := 7, email := 5 }, { id := 42, email := 6 }],
    schedules := [{ id := 1, startDateTime := 540, endDateTime := 570 }],
    doctorSchedules := [{ doctorId := 42, scheduleId := 1, isBooked := false }] }

/-- Claim C4: the claim states that getMySchedule returns only rows whose
doctorId equals the calling doctor's id.  The code never filters by the
caller: with caller email 5 (doctor id 7) the returned page contains the
row of doctor 42. -/
theorem getMySchedule_returns_other_doctors :
    availExample.doctors.find? (fun d => d.email == 5) = some { id := 7, email := 5 } ∧
    (getMySchedule { startDate := none, endDate := none, isBooked := none }
        1 10 5 availExample).data =
      [{ doctorId := 42, scheduleId := 1, isBooked := false }] ∧
    (42 : Nat) ≠ 7 := by
  refine ⟨rfl, rfl, by decide⟩

/-- Claim C10: when exactly one of startDate and endDate is supplied,
getMySchedule strips it and behaves exactly as the listing with no date
constraint at all. -/
theorem getMySchedule_single_bound_ignored (filters : MyScheduleFilters)
    (page limit user : Nat) (st : AvailState)
    (h : filters.startDate.isSome ≠ filters.endDate.isSome) :
    getMySchedule filters page limit user st =
      getMySchedule { startDate := none, endDate := none, isBooked := filters.isBooked }
        page limit user st := by
  rcases filters with ⟨sd, ed, ib⟩
  cases sd <;> cases ed
  · simp at h
  · rfl
  · rfl
  · simp at h

/-- Witness for getMySchedule_single_bound_ignored with only startDate set. -/
theorem getMySchedule_single_bound_ignored_witness :
    (some 100 : Option Nat).isSome ≠ (none : Option Nat).isSome ∧
    getMySchedule { startDate := some 100, endDate := none, isBooked := none }
        1 10 5 availExample =
      getMySchedule { startDate := none, endDate := none, isBooked := none }
        1 10 5 availExample := by
  exact ⟨by decide,
    getMySchedule_single_bound_ignored
      { startDate := some 100, endDate := none, isBooked := none } 1 10 5 availExample
      (by decide)⟩

/-- A concrete state for insertIntoDB: one doctor (id 7, email 5) and a
single schedule row with id 1. -/
def availExample2 : AvailState :=
  { doctors := [{ id := 7, email := 5 }],
    schedules := [{ id := 1, startDateTime := 540, endDateTime := 570 }],
    doctorSchedules := [] }

/-- Counterexample for claim C9: the claim states that the error lists all
missing schedule ids.  The thrown message is one constant string: runs in
which the missing id is 2 and in which it is 3 fail with identical errors,
so the error names no missing id. -/
theorem insertIntoDB_generic_error_cex :
    insertIntoDB 5 [1, 2] availExample2 =
      Except.error "One or more schedule IDs are invalid" ∧
    insertIntoDB 5 [1, 3] availExample2 =
      Except.error "One or more schedule IDs are invalid" := by
  constructor <;> rfl

/-- Claim C9 as amended: when the caller's doctor exists and some supplied
schedule id resolves to no schedule row, insertIntoDB fails with the
generic message, which names no ids, and no doctorSchedules row is
created. -/
theorem insertIntoDB_missing_id_fails (userEmail : Nat) (scheduleIds : List Nat)
    (st : AvailState) (doctorData : Doctor) (sid : Nat)
    (hdoc : st.doctors.find? (fun d => d.email == userEmail) = some doctorData)
    (hnd : (st.schedules.map Schedule.id).Nodup)
    (hmem : sid ∈ scheduleIds)
    (hmiss : ∀ s ∈ st.schedules, s.id ≠ sid) :
    insertIntoDB userEmail scheduleIds st =
      Except.error "One or more schedule IDs are invalid" ∧
    runInsertIntoDB userEmail scheduleIds st = st := by
  have hlt : (st.schedules.filter (fun s => scheduleIds.contains s.id)).length <
      scheduleIds.length := by
    set m := (st.schedules.filter (fun s => scheduleIds.contains s.id)).map Schedule.id with hm
    have hmlen : m.length =
        (st.schedules.filter (fun s => scheduleIds.contains s.id)).length := by
      simp [hm]
    have hmnd : m.Nodup :=
      ((List.filter_sublist st.schedules).map Schedule.id).nodup hnd
    have hsubset : m.toFinset ⊆ scheduleIds.toFinset.erase sid := by
      intro x hx
      rw [List.mem_toFinset] at hx
      rw [hm, List.mem_map] at hx
      obtain ⟨s, hs, rfl⟩ := hx
      rw [List.mem_filter] at hs
      have hsin : s.id ∈ scheduleIds := by
        have := hs.2
        simpa using this
      exact Finset.mem_erase.mpr ⟨hmiss s hs.1, List.mem_toFinset.mpr hsin⟩
    have h1 : m.length ≤ scheduleIds.toFinset.card - 1 := by
      calc m.length = m.toFinset.card := (List.toFinset_card_of_nodup hmnd).symm
        _ ≤ (scheduleIds.toFinset.erase sid).card := Finset.card_le_card hsubset
        _ = scheduleIds.toFinset.card - 1 :=
            Finset.card_erase_of_mem (List.mem_toFinset.mpr hmem)
    have h2 : scheduleIds.toFinset.card ≤ scheduleIds.length := scheduleIds.toFinset_card_le
    have h3 : 1 ≤ scheduleIds.toFinset.card :=
      Finset.card_pos.mpr ⟨sid, List.mem_toFinset.mpr hmem⟩
    omega
  have hguard : ((st.schedules.filter (fun s => scheduleIds.contains s.id)).length !=
      scheduleIds.length) = true :=
    bne_iff_ne.mpr (Nat.ne_of_lt hlt)
  have herr : insertIntoDB userEmail scheduleIds st =
      Except.error "One or more schedule IDs are invalid" := by
    simp only [insertIntoDB, hdoc, hguard, if_true]
  refine ⟨herr, ?_⟩
  unfold runInsertIntoDB
  rw [herr]

/-- Witness for insertIntoDB_missing_id_fails: schedule id 2 is missing. -/
theorem insertIntoDB_missing_id_fails_witness :
    availExample2.doctors.find? (fun d => d.email == 5) = some { id := 7, email := 5 } ∧
    (2 : Nat) ∈ [1, 2] ∧
    insertIntoDB 5 [1, 2] availExample2 =
      Except.error "One or more schedule IDs are invalid" ∧
    runInsertIntoDB 5 [1, 2] availExample2 = availExample2 := by
  have h := insertIntoDB_missing_id_fails 5 [1, 2] availExample2
    { id := 7, email := 5 } 2 (by decide) (by decide) (by decide) (by decide)
  exact ⟨by decide, by decide, h.1, h.2⟩

/-! ### Doctor specialties (doctor service updateIntoDB and user service
createDoctor, from the repository's refactoring guide code blocks) -/

/-- The tables touched by the specialty reconciler and doctor creation:
user records, doctor ids, specialty ids, and doctorSpecialties join rows
(doctorId, specialitiesId). -/
structure ClinicState where
  users : List Nat
  doctors : List Nat
  specialties : List Nat
  doctorSpecialties : List (Nat × Nat)
  deriving Repr, DecidableEq

/-- Errors thrown by the specialty code: the doctor lookup, the message
naming specialties that cannot be removed, and the message naming invalid
specialty ids; the carried list is the id list the source interpolates
into the thrown message. -/
inductive SpecialtyError where
  | doctorNotFound
  | removeNotFound (notFound : List Nat)
  | invalidSpecialtyIds (invalid : List Nat)
  deriving Repr, DecidableEq

/-- Step 2 of updateIntoDB (remove specialties if provided): fetch the
existing join rows for (doctorId, id in removeSpecialties); when the
fetched count differs from the request count, throw naming exactly the ids
with no join row; otherwise deleteMany those rows. -/
def removePass (doctorId : Nat) (removeSpecialties : List Nat)
    (links : List (Nat × Nat)) : Except SpecialtyError (List (Nat × Nat)) :=
  if removeSpecialties.isEmpty then Except.ok links
  else
    let existingDoctorSpecialties :=
      links.filter (fun l => l.1 == doctorId && removeSpecialties.contains l.2)
    if existingDoctorSpecialties.length != removeSpecialties.length then
      let foundIds := existingDoctorSpecialties.map Prod.snd
      Except.error (SpecialtyError.removeNotFound
        (removeSpecialties.filter (fun id => !foundIds.contains id)))
    else
      Except.ok (links.filter
        (fun l => !(l.1 == doctorId && removeSpecialties.contains l.2)))

/-- Step 3 of updateIntoDB (add specialties if provided): fetch the
specialty rows with id in the add list and throw naming the unknown ids;
fetch the join rows the doctor already holds among the add list and insert
rows only for the ids not already held. -/
def addPass (doctorId : Nat) (specialties : List Nat) (specialtyTable : List Nat)
    (links : List (Nat × Nat)) : Except SpecialtyError (List (Nat × Nat)) :=
  if specialties.isEmpty then Except.ok links
  else
    let existingSpecialtyIds := specialtyTable.filter (fun id => specialties.contains id)
    let invalidSpecialties := specialties.filter (fun id => !existingSpecialtyIds.contains id)
    if !invalidSpecialties.isEmpty then
      Except.error (SpecialtyError.invalidSpecialtyIds invalidSpecialties)
    else
      let currentSpecialtyIds :=
        (links.filter (fun l => l.1 == doctorId && specialties.contains l.2)).map Prod.snd
      let newSpecialties := specialties.filter (fun id => !currentSpecialtyIds.contains id)
      Except.ok (links ++ newSpecialties.map (fun id => (doctorId, id)))

/-- updateIntoDB of the doctor service: look up the (non-deleted) doctor,
then inside one transaction run the remove pass and the add pass; the
profile-field patch touches no specialty table and is outside this model's
claims. -/
def updateIntoDB (id : Nat) (specialties removeSpecialties : List Nat)
    (st : ClinicState) : Except SpecialtyError ClinicState :=
  if st.doctors.contains id then
    match removePass id removeSpecialties st.doctorSpecialties with
    | Except.error e => Except.error e
    | Except.ok links1 =>
      match addPass id specialties st.specialties links1 with
      | Except.error e => Except.error e
      | Except.ok links2 => Except.ok { st with doctorSpecialties := links2 }
  else Except.error SpecialtyError.doctorNotFound

/-- Observable post-state of updateIntoDB: a throw aborts the transaction
and rolls every write back. -/
def runUpdateIntoDB (id : Nat) (specialties removeSpecialties : List Nat)
    (st : ClinicState) : ClinicState :=
  match updateIntoDB id specialties removeSpecialties st with
  | Except.ok st1 => st1
  | Except.error _ => st

/-- The specialty ids a doctor currently holds. -/
def doctorSpecialtyIds (doctorId : Nat) (st : ClinicState) : List Nat :=
  (st.doctorSpecialties.filter (fun l => l.1 == doctorId)).map Prod.snd

/-- createDoctor of the user service: inside one transaction create the
user record and the doctor record, then, when a non-empty specialties list
is provided, verify every id against the specialty table, throw naming the
invalid ids, and otherwise createMany the join rows. -/
def createDoctor (email newDoctorId : Nat) (specialties : Option (List Nat))
    (st : ClinicState) : Except SpecialtyError ClinicState :=
  let st1 := { st with users := st.users ++ [email] }
  let st2 := { st1 with doctors := st1.doctors ++ [newDoctorId] }
  match specialties with
  | none => Except.ok st2
  | some specs =>
    if specs.isEmpty then Except.ok st2
    else
      let existingSpecialtyIds := st.specialties.filter (fun id => specs.contains id)
      let invalidSpecialties := specs.filter (fun id => !existingSpecialtyIds.contains id)
      if !invalidSpecialties.isEmpty then
        Except.error (SpecialtyError.invalidSpecialtyIds invalidSpecialties)
      else
        let newLinks := st2.doctorSpecialties ++ specs.map (fun sid => (newDoctorId, sid))
        Except.ok { st2 with doctorSpecialties := newLinks }

/-- Observable post-state of createDoctor: a throw aborts the transaction,
so neither the user record nor the doctor record nor any join row
survives. -/
def runCreateDoctor (email newDoctorId : Nat) (specialties : Option (List Nat))
    (st : ClinicState) : ClinicState :=
  match createDoctor email newDoctorId specialties st with
  | Except.ok st1 => st1
  | Except.error _ => st

/-! ### Helper lemmas about the join-row queries -/

theorem length_filter_lt_of_not (l : List Nat) (p : Nat → Bool) (a : Nat)
    (ha : a ∈ l) (hpa : p a = false) : (l.filter p).length < l.length := by
  induction l with
  | nil => cases ha
  | cons x xs ih =>
    rcases List.mem_cons.mp ha with rfl | hmem
    · rw [List.filter_cons_of_neg (by simp [hpa])]
      have := List.length_filter_le p xs
      simp only [List.length_cons]
      omega
    · by_cases hx : p x = true
      · rw [List.filter_cons_of_pos hx]
        simpa using ih hmem
      · rw [List.filter_cons_of_neg hx]
        have := ih hmem
        simp only [List.length_cons]
        omega

theorem mem_links_filter (links : List (Nat × Nat)) (d : Nat) (ids : List Nat)
    (x : Nat × Nat) :
    x ∈ links.filter (fun l => l.1 == d && ids.contains l.2) ↔
      x ∈ links ∧ x.1 = d ∧ x.2 ∈ ids := by
  rw [List.mem_filter, Bool.and_eq_true, beq_iff_eq]
  simp [List.elem_iff]

theorem mem_currentIds (links : List (Nat × Nat)) (d : Nat) (ids : List Nat) (a : Nat) :
    a ∈ (links.filter (fun l => l.1 == d && ids.contains l.2)).map Prod.snd ↔
      (d, a) ∈ links ∧ a ∈ ids := by
  constructor
  · intro h
    rw [List.mem_map] at h
    obtain ⟨⟨p, q⟩, hx, rfl⟩ := h
    rw [mem_links_filter] at hx
    obtain ⟨hmem, h1, h2⟩ := hx
    dsimp only at h1 h2 ⊢
    subst h1
    exact ⟨hmem, h2⟩
  · rintro ⟨h1, h2⟩
    rw [List.mem_map]
    exact ⟨(d, a), (mem_links_filter links d ids (d, a)).mpr ⟨h1, rfl, h2⟩, rfl⟩

theorem mem_map_snd_filter_fst (links : List (Nat × Nat)) (d s : Nat) :
    s ∈ (links.filter (fun l => l.1 == d)).map Prod.snd ↔ (d, s) ∈ links := by
  constructor
  · intro h
    rw [List.mem_map] at h
    obtain ⟨⟨p, q⟩, hx, rfl⟩ := h
    rw [List.mem_filter] at hx
    obtain ⟨hmem, hbeq⟩ := hx
    have h1 : p = d := by simpa using hbeq
    dsimp only
    subst h1
    exact hmem
  · intro h
    rw [List.mem_map]
    exact ⟨(d, s), List.mem_filter.mpr ⟨h, by simp⟩, rfl⟩

theorem mem_links_remove (links : List (Nat × Nat)) (d : Nat) (R : List Nat)
    (x : Nat × Nat) :
    x ∈ links.filter (fun l => !(l.1 == d && R.contains l.2)) ↔
      x ∈ links ∧ ¬(x.1 = d ∧ x.2 ∈ R) := by
  rw [List.mem_filter]
  simp [List.elem_iff]
  tauto

theorem links_filter_perm (links : List (Nat × Nat)) (d : Nat) (ids : List Nat)
    (hlinks : links.Nodup) (hids : ids.Nodup) :
    (links.filter (fun l => l.1 == d && ids.contains l.2)).Perm
      ((ids.filter (fun r => links.contains (d, r))).map (fun r => (d, r))) := by
  have hinj : Function.Injective (fun r => ((d, r) : Nat × Nat)) := by
    intro a b h
    exact congrArg Prod.snd h
  refine (List.perm_ext_iff_of_nodup (hlinks.filter _) ((hids.filter _).map hinj)).mpr ?_
  intro x
  rw [mem_links_filter, List.mem_map]
  constructor
  · rintro ⟨hmem, h1, h2⟩
    refine ⟨x.2, List.mem_filter.mpr ⟨h2, ?_⟩, ?_⟩
    · rw [List.elem_iff]
      rcases x with ⟨p, q⟩
      dsimp only at h1 ⊢
      subst h1
      exact hmem
    · rcases x with ⟨p, q⟩
      dsimp only at h1 ⊢
      rw [h1]
  · rintro ⟨r, hr, rfl⟩
    rw [List.mem_filter, List.elem_iff] at hr
    exact ⟨hr.2, rfl, hr.1⟩

theorem removePass_nil (d : Nat) (links : List (Nat × Nat)) :
    removePass d [] links = Except.ok links := rfl

theorem removePass_ok (d : Nat) (R : List Nat) (links : List (Nat × Nat))
    (hlinks : links.Nodup) (hR : R.Nodup) (hRsub : ∀ r ∈ R, (d, r) ∈ links) :
    removePass d R links =
      Except.ok (links.filter (fun l => !(l.1 == d && R.contains l.2))) := by
  unfold removePass
  by_cases hRe : R.isEmpty = true
  · rw [if_pos hRe]
    obtain rfl := List.isEmpty_iff.mp hRe
    simp
  · rw [if_neg hRe]
    dsimp only
    have hfe : R.filter (fun r => links.contains (d, r)) = R := by
      apply List.filter_eq_self.mpr
      intro r hr
      exact List.elem_iff.mpr (hRsub r hr)
    have hlen : (links.filter (fun l => l.1 == d && R.contains l.2)).length = R.length := by
      rw [(links_filter_perm links d R hlinks hR).length_eq, List.length_map, hfe]
    rw [if_neg ?_]
    rw [hlen]
    simp

theorem removePass_error (d : Nat) (R : List Nat) (links : List (Nat × Nat))
    (hlinks : links.Nodup) (hR : R.Nodup) (r0 : Nat)
    (hr0 : r0 ∈ R) (hmiss : (d, r0) ∉ links) :
    removePass d R links =
      Except.error (SpecialtyError.removeNotFound
        (R.filter (fun id => !links.contains (d, id)))) := by
  unfold removePass
  rw [if_neg (by simp [List.isEmpty_iff, List.ne_nil_of_mem hr0])]
  dsimp only
  have hlen : (links.filter (fun l => l.1 == d && R.contains l.2)).length < R.length := by
    rw [(links_filter_perm links d R hlinks hR).length_eq, List.length_map]
    exact length_filter_lt_of_not R _ r0 hr0
      (by simp [List.elem_eq_mem, hmiss])
  rw [if_pos (bne_iff_ne.mpr (Nat.ne_of_lt hlen))]
  congr 1
  congr 1
  apply List.filter_congr
  intro a ha
  congr 1
  rw [Bool.eq_iff_iff, List.elem_iff, List.elem_iff]
  rw [mem_currentIds]
  constructor
  · exact fun h => h.1
  · exact fun h => ⟨h, ha⟩

/-- The join-row table produced by the add pass of updateIntoDB when every
id in the add list is a valid specialty. -/
def addResult (d : Nat) (A : List Nat) (links : List (Nat × Nat)) :
    List (Nat × Nat) :=
  links ++ (A.filter (fun a =>
    !((links.filter (fun l => l.1 == d && A.contains l.2)).map Prod.snd).contains a)).map
    (fun a => (d, a))

theorem addPass_ok (d : Nat) (A : List Nat) (specialtyTable : List Nat)
    (links : List (Nat × Nat)) (hA : ∀ a ∈ A, a ∈ specialtyTable) :
    addPass d A specialtyTable links = Except.ok (addResult d A links) := by
  unfold addPass addResult
  by_cases hAe : A.isEmpty = true
  · rw [if_pos hAe]
    obtain rfl := List.isEmpty_iff.mp hAe
    simp
  · rw [if_neg hAe]
    dsimp only
    have hinv : A.filter (fun id =>
        !(specialtyTable.filter (fun id2 => A.contains id2)).contains id) = [] := by
      apply List.filter_eq_nil_iff.mpr
      intro a ha
      simp only [Bool.not_eq_true', Bool.not_eq_false]
      rw [List.elem_iff, List.mem_filter]
      exact ⟨hA a ha, List.elem_iff.mpr ha⟩
    rw [hinv]
    simp

theorem pair_mem_addResult (d : Nat) (A : List Nat) (links : List (Nat × Nat)) (s : Nat) :
    (d, s) ∈ addResult d A links ↔ (d, s) ∈ links ∨ s ∈ A := by
  unfold addResult
  rw [List.mem_append, List.mem_map]
  constructor
  · rintro (h | ⟨a, ha, heq⟩)
    · exact Or.inl h
    · have : a = s := congrArg Prod.snd heq
      subst this
      exact Or.inr (List.mem_filter.mp ha).1
  · rintro (h | h)
    · exact Or.inl h
    · by_cases hcur : (d, s) ∈ links
      · exact Or.inl hcur
      · refine Or.inr ⟨s, List.mem_filter.mpr ⟨h, ?_⟩, rfl⟩
        simp only [Bool.not_eq_true']
        rw [← Bool.not_eq_true, List.elem_iff, mem_currentIds]
        exact fun hc => hcur hc.1

theorem addResult_all_held (d : Nat) (A : List Nat) (links : List (Nat × Nat))
    (hheld : ∀ a ∈ A, (d, a) ∈ links) :
    addResult d A links = links := by
  unfold addResult
  have : A.filter (fun a =>
      !((links.filter (fun l => l.1 == d && A.contains l.2)).map Prod.snd).contains a) = [] := by
    apply List.filter_eq_nil_iff.mpr
    intro a ha
    simp only [Bool.not_eq_true', Bool.not_eq_false]
    rw [List.elem_iff, mem_currentIds]
    exact ⟨hheld a ha, ha⟩
  rw [this]
  simp

theorem addResult_nodup (d : Nat) (A : List Nat) (links : List (Nat × Nat))
    (hlinks : links.Nodup) (hA : A.Nodup) : (addResult d A links).Nodup := by
  unfold addResult
  rw [List.nodup_append]
  have hinj : Function.Injective (fun a => ((d, a) : Nat × Nat)) := by
    intro a b h
    exact congrArg Prod.snd h
  refine ⟨hlinks, (hA.filter _).map hinj, ?_⟩
  intro x hx hx2
  rw [List.mem_map] at hx2
  obtain ⟨a, ha, rfl⟩ := hx2
  rw [List.mem_filter] at ha
  have := ha.2
  simp only [Bool.not_eq_true'] at this
  rw [← Bool.not_eq_true, List.elem_iff, mem_currentIds] at this
  exact this ⟨hx, ha.1⟩

/-- A concrete clinic state: doctor 7 holds specialties 1 and 2; the
specialty table holds ids 1, 2 and 3. -/
def clinicExample : ClinicState :=
  { users := [], doctors := [7], specialties := [1, 2, 3],
    doctorSpecialties := [(7, 1), (7, 2)] }

/-- Claim C3: for a doctor d, a set A of valid specialty ids and a set R
of currently held ids, with A and R disjoint, updateIntoDB succeeds (the
remove pass running before the add pass) and the doctor's specialty set
afterwards is exactly (current minus R) union A. -/
theorem updateIntoDB_reconciles (d : Nat) (A R : List Nat) (st : ClinicState)
    (hd : d ∈ st.doctors)
    (hlinks : st.doctorSpecialties.Nodup)
    (hR : R.Nodup)
    (hRsub : ∀ r ∈ R, (d, r) ∈ st.doctorSpecialties)
    (hA : ∀ a ∈ A, a ∈ st.specialties)
    (hdisj : ∀ x ∈ A, x ∉ R) :
    ∃ st1, updateIntoDB d A R st = Except.ok st1 ∧
      ∀ s, s ∈ doctorSpecialtyIds d st1 ↔
        (s ∈ doctorSpecialtyIds d st ∧ s ∉ R) ∨ s ∈ A := by
  have hrem := removePass_ok d R st.doctorSpecialties hlinks hR hRsub
  set links1 := st.doctorSpecialties.filter (fun l => !(l.1 == d && R.contains l.2))
    with hl1
  have hadd := addPass_ok d A st.specialties links1 hA
  refine ⟨{ st with doctorSpecialties := addResult d A links1 }, ?_, ?_⟩
  · simp only [updateIntoDB, List.elem_iff.mpr hd, if_true, hrem, hadd]
  · intro s
    unfold doctorSpecialtyIds
    dsimp only
    rw [mem_map_snd_filter_fst, mem_map_snd_filter_fst, pair_mem_addResult,
      mem_links_remove]
    dsimp only
    constructor
    · rintro (⟨h1, h2⟩ | h)
      · exact Or.inl ⟨h1, fun hr => h2 ⟨rfl, hr⟩⟩
      · exact Or.inr h
    · rintro (⟨h1, h2⟩ | h)
      · exact Or.inl ⟨h1, fun hc => h2 hc.2⟩
      · exact Or.inr h

/-- Witness for updateIntoDB_reconciles: doctor 7 holds specialties 1 and
2, adds 3 and removes 2. -/
theorem updateIntoDB_reconciles_witness :
    (7 : Nat) ∈ clinicExample.doctors ∧
    (∃ st1, updateIntoDB 7 [3] [2] clinicExample = Except.ok st1 ∧
      ∀ s, s ∈ doctorSpecialtyIds 7 st1 ↔
        (s ∈ doctorSpecialtyIds 7 clinicExample ∧ s ∉ [2]) ∨ s ∈ [3]) := by
  exact ⟨by decide, updateIntoDB_reconciles 7 [3] [2] clinicExample
    (by decide) (by decide) (by decide) (by decide) (by decide) (by decide)⟩

/-- Claim C7: when the remove set holds an id the doctor does not hold,
updateIntoDB fails with the error naming exactly the ids with no join row
(all of them) and the state is completely unchanged. -/
theorem updateIntoDB_remove_missing_fails (d : Nat) (R : List Nat)
    (st : ClinicState) (r0 : Nat)
    (hd : d ∈ st.doctors)
    (hlinks : st.doctorSpecialties.Nodup)
    (hR : R.Nodup)
    (hr0 : r0 ∈ R) (hmiss : (d, r0) ∉ st.doctorSpecialties) :
    updateIntoDB d [] R st =
      Except.error (SpecialtyError.removeNotFound
        (R.filter (fun id => !st.doctorSpecialties.contains (d, id)))) ∧
    r0 ∈ R.filter (fun id => !st.doctorSpecialties.contains (d, id)) ∧
    runUpdateIntoDB d [] R st = st := by
  have hrem := removePass_error d R st.doctorSpecialties hlinks hR r0 hr0 hmiss
  have herr : updateIntoDB d [] R st =
      Except.error (SpecialtyError.removeNotFound
        (R.filter (fun id => !st.doctorSpecialties.contains (d, id)))) := by
    simp only [updateIntoDB, List.elem_iff.mpr hd, if_true, hrem]
  refine ⟨herr, ?_, ?_⟩
  · rw [List.mem_filter]
    exact ⟨hr0, by simp [List.elem_eq_mem, hmiss]⟩
  · unfold runUpdateIntoDB
    rw [herr]

/-- Witness for updateIntoDB_remove_missing_fails: removing specialty 3,
which doctor 7 does not hold. -/
theorem updateIntoDB_remove_missing_fails_witness :
    (7 : Nat) ∈ clinicExample.doctors ∧ (3 : Nat) ∈ [2, 3] ∧
    updateIntoDB 7 [] [2, 3] clinicExample =
      Except.error (SpecialtyError.removeNotFound
        ([2, 3].filter (fun id => !clinicExample.doctorSpecialties.contains (7, id)))) ∧
    (3 : Nat) ∈ [2, 3].filter
      (fun id => !clinicExample.doctorSpecialties.contains (7, id)) ∧
    runUpdateIntoDB 7 [] [2, 3] clinicExample = clinicExample := by
  have h := updateIntoDB_remove_missing_fails 7 [2, 3] clinicExample 3
    (by decide) (by decide) (by decide) (by decide) (by decide)
  exact ⟨by decide, by decide, h.1, h.2.1, h.2.2⟩

/-- Claim C8: the add path is idempotent: adding a set A of valid
specialty ids twice yields the same state as adding it once, re-adding an
already-held specialty succeeds silently, and the resulting join-row table
holds no duplicate row. -/
theorem updateIntoDB_add_idempotent (d : Nat) (A : List Nat) (st : ClinicState)
    (hd : d ∈ st.doctors)
    (hA : ∀ a ∈ A, a ∈ st.specialties)
    (hAnd : A.Nodup)
    (hlinks : st.doctorSpecialties.Nodup) :
    ∃ st1, updateIntoDB d A [] st = Except.ok st1 ∧
      updateIntoDB d A [] st1 = Except.ok st1 ∧
      st1.doctorSpecialties.Nodup := by
  have hheld : ∀ a ∈ A, (d, a) ∈ addResult d A st.doctorSpecialties := by
    intro a ha
    exact (pair_mem_addResult d A st.doctorSpecialties a).mpr (Or.inr ha)
  refine ⟨{ st with doctorSpecialties := addResult d A st.doctorSpecialties },
    ?_, ?_, ?_⟩
  · simp only [updateIntoDB, List.elem_iff.mpr hd, if_true, removePass_nil,
      addPass_ok d A st.specialties st.doctorSpecialties hA]
  · simp only [updateIntoDB, List.elem_iff.mpr hd, if_true, removePass_nil,
      addPass_ok d A st.specialties (addResult d A st.doctorSpecialties) hA,
      addResult_all_held d A (addResult d A st.doctorSpecialties) hheld]
  · exact addResult_nodup d A st.doctorSpecialties hlinks hAnd

/-- Witness for updateIntoDB_add_idempotent: adding specialties 2 and 3,
one already held. -/
theorem updateIntoDB_add_idempotent_witness :
    (7 : Nat) ∈ clinicExample.doctors ∧
    (∃ st1, updateIntoDB 7 [2, 3] [] clinicExample = Except.ok st1 ∧
      updateIntoDB 7 [2, 3] [] st1 = Except.ok st1 ∧
      st1.doctorSpecialties.Nodup) := by
  exact ⟨by decide, updateIntoDB_add_idempotent 7 [2, 3] clinicExample
    (by decide) (by decide) (by decide) (by decide)⟩

/-- Claim C5: createDoctor with a specialties list holding an id that
resolves to no specialty row fails naming the invalid ids and the
transaction leaves no user record, no doctor record and no join row: the
state is exactly the initial one. -/
theorem createDoctor_invalid_specialty_rollback (email newDoctorId : Nat)
    (specs : List Nat) (st : ClinicState) (sid : Nat)
    (hmem : sid ∈ specs) (hmiss : sid ∉ st.specialties) :
    createDoctor email newDoctorId (some specs) st =
      Except.error (SpecialtyError.invalidSpecialtyIds
        (specs.filter (fun id => !st.specialties.contains id))) ∧
    sid ∈ specs.filter (fun id => !st.specialties.contains id) ∧
    runCreateDoctor email newDoctorId (some specs) st = st := by
  have hsid_mem : sid ∈ specs.filter (fun id => !st.specialties.contains id) := by
    rw [List.mem_filter]
    exact ⟨hmem, by simp [List.elem_eq_mem, hmiss]⟩
  have hcong : specs.filter (fun id =>
      !(st.specialties.filter (fun id2 => specs.contains id2)).contains id) =
      specs.filter (fun id => !st.specialties.contains id) := by
    apply List.filter_congr
    intro a ha
    congr 1
    rw [Bool.eq_iff_iff, List.elem_iff, List.elem_iff, List.mem_filter]
    constructor
    · exact fun h => h.1
    · exact fun h => ⟨h, List.elem_iff.mpr ha⟩
  have herr : createDoctor email newDoctorId (some specs) st =
      Except.error (SpecialtyError.invalidSpecialtyIds
        (specs.filter (fun id => !st.specialties.contains id))) := by
    have hguard : (!(specs.filter (fun id => !st.specialties.contains id)).isEmpty) = true := by
      simp only [Bool.not_eq_true', ← Bool.not_eq_true, List.isEmpty_iff]
      exact List.ne_nil_of_mem hsid_mem
    unfold createDoctor
    dsimp only
    rw [if_neg (by rw [List.isEmpty_iff]; exact List.ne_nil_of_mem hmem)]
    rw [hcong]
    rw [if_pos hguard]
  refine ⟨herr, hsid_mem, ?_⟩
  unfold runCreateDoctor
  rw [herr]

/-- Witness for createDoctor_invalid_specialty_rollback: specialty id 9
does not exist in the table. -/
theorem createDoctor_invalid_specialty_rollback_witness :
    (9 : Nat) ∈ [1, 9] ∧ (9 : Nat) ∉ clinicExample.specialties ∧
    createDoctor 11 8 (some [1, 9]) clinicExample =
      Except.error (SpecialtyError.invalidSpecialtyIds
        ([1, 9].filter (fun id => !clinicExample.specialties.contains id))) ∧
    runCreateDoctor 11 8 (some [1, 9]) clinicExample = clinicExample := by
  have h := createDoctor_invalid_specialty_rollback 11 8 [1, 9] clinicExample 9
    (by decide) (by decide)
  exact ⟨by decide, by decide, h.1, h.2.2⟩

end HealthCare
